import Mathlib

/-!
Verification of the local-first sync engine (supabase-manager) against its
natural-language specification.  The definitions below are shallow embeddings
of the JavaScript source: timestamps are integers (milliseconds), the JS NaN
value produced by invalid Date objects is modelled as Option.none, local and
cloud record shapes follow the converter functions of the source file
(cloudToLocalFolder, localToCloudFolder and the prompt analogues), and the
stateful store is explicit.
-/

/-- JS millisecond time as produced by getTime: some t for a finite value,
none for NaN (the result of new Date(undefined).getTime()). -/
abbrev JSTime := Option Int

/-- JS comparison a > b on times: any comparison involving NaN is false. -/
def jsGt : JSTime → JSTime → Bool
  | some a, some b => a > b
  | _, _ => false

/-- Local record shape.  Records written to the local store by this code base
(cloudToLocalFolder, cloudToLocalPrompt, the realtime handlers) carry only the
camelCase timestamp pair createdAt and updatedAt; the snake_case fields
created_at and updated_at never exist on a local record.  Both spellings are
modelled as Option fields so that property accesses in the source translate
verbatim: an access to a missing field yields none. -/
structure LocalRec where
  id : String
  createdAt : Option Int := none
  updatedAt : Option Int := none
  created_at : Option Int := none
  updated_at : Option Int := none
deriving DecidableEq, Repr

/-- Cloud (remote) record shape: database rows always carry the snake_case
timestamp pair, non-null. -/
structure CloudRec where
  id : String
  created_at : Int := 0
  updated_at : Int := 0
deriving DecidableEq, Repr

/-- cloudToLocalFolder and cloudToLocalPrompt of the source: copy the cloud
timestamps into the camelCase fields of a fresh local record. -/
def cloudToLocal (c : CloudRec) : LocalRec :=
  { id := c.id, createdAt := some c.created_at, updatedAt := some c.updated_at }

/-- Outcome of the conflict branch of performSmartMerge for one id that is
present on both sides. -/
inductive MergeAction
  | uploadLocal
  | downloadCloud
  | keep
deriving DecidableEq, Repr

/-- The localTime computation of the auto branch of performSmartMerge
(source lines 368 and 428): new Date(local.updated_at || local.created_at)
followed by getTime().  The field accesses are the snake_case ones, taken on a
LOCAL record; when both are absent the result is NaN, modelled as none. -/
def smartMergeLocalTime (l : LocalRec) : JSTime :=
  l.updated_at <|> l.created_at

/-- The cloudTime computation of the same branch: cloud rows always carry a
non-empty (hence truthy) updated_at, so the JS disjunction collapses to it. -/
def smartMergeCloudTime (c : CloudRec) : JSTime :=
  some c.updated_at

/-- performSmartMerge with strategy auto, restricted to one record present in
both maps: the first loop uploads the local record when localTime > cloudTime,
the second loop downloads the cloud record when cloudTime > localTime, and
otherwise nothing is written (source lines 365 to 377 and 391 to 402). -/
def autoConflictAction (l : LocalRec) (c : CloudRec) : MergeAction :=
  if jsGt (smartMergeLocalTime l) (smartMergeCloudTime c) then .uploadLocal
  else if jsGt (smartMergeCloudTime c) (smartMergeLocalTime l) then .downloadCloud
  else .keep

/-- Modelled from the spec: the conflict resolution the specification
describes, comparing the two timestamps directly and letting the strictly
greater side win, with equality keeping the local version. -/
def specConflictAction (tLocal tRemote : Int) : MergeAction :=
  if tLocal > tRemote then .uploadLocal
  else if tRemote > tLocal then .downloadCloud
  else .keep

/-- The local store of one table, keyed by record id, as exposed by the
IndexedDB manager. -/
abbrev LocalStore := String → Option LocalRec

/-- Modelled from the spec: the put operation of the Local Store Adapter
(window.AI_ChatWorks_IndexedDBManager.put), which is not part of the sources
under inspection; section 6 of the specification describes it as plain
key-addressable storage, so put stores the record under its id
unconditionally. -/
def putRecord (s : LocalStore) (r : LocalRec) : LocalStore :=
  fun i => if i = r.id then some r else s i

/-- Modelled from the spec: the delete operation of the Local Store Adapter. -/
def deleteRecord (s : LocalStore) (delId : String) : LocalStore :=
  fun i => if i = delId then none else s i

/-- An inbound realtime change event; insert and update carry payload.new,
delete carries the id of payload.old. -/
inductive RealtimeEvent
  | insert (rec : CloudRec)
  | update (rec : CloudRec)
  | delete (oldId : String)
deriving Repr

/-- handleRealtimeFolderChange and handleRealtimePromptChange: INSERT and
UPDATE convert payload.new with cloudToLocal and put it; DELETE removes the
record of payload.old.id.  No timestamp of the stored local record is
consulted. -/
def handleRealtimeChange (s : LocalStore) (e : RealtimeEvent) : LocalStore :=
  match e with
  | .insert c => putRecord s (cloudToLocal c)
  | .update c => putRecord s (cloudToLocal c)
  | .delete i => deleteRecord s i

/-- The empty local store. -/
def emptyStore : LocalStore := fun _ => none

theorem jsGt_none_left (y : JSTime) : jsGt none y = false := rfl

theorem jsGt_none_right (x : JSTime) : jsGt x none = false := by
  cases x <;> rfl

/-- C1: the auto strategy of performSmartMerge never resolves a conflict in
either direction.  The localTime computation reads the snake_case fields
updated_at and created_at, which do not exist on local records (they carry
createdAt and updatedAt), so localTime is NaN and both timestamp comparisons
are false.  In particular for a local record F1 with updatedAt 200 against a
cloud row with updated_at 100 the code keeps both sides unchanged, while the
claimed resolution would push the strictly newer local record. -/
theorem smartMerge_auto_never_resolves_conflicts :
    (∀ (l : LocalRec) (c : CloudRec), l.created_at = none → l.updated_at = none →
      autoConflictAction l c = MergeAction.keep)
    ∧ autoConflictAction
        { id := "F1", createdAt := some 100, updatedAt := some 200 }
        { id := "F1", created_at := 100, updated_at := 100 } = MergeAction.keep
    ∧ specConflictAction 200 100 = MergeAction.uploadLocal := by
  refine ⟨?_, by decide, by decide⟩
  intro l c h1 h2
  have hl : smartMergeLocalTime l = none := by
    rw [smartMergeLocalTime, h1, h2]
    rfl
  simp [autoConflictAction, hl, jsGt_none_left, jsGt_none_right]

/-- Witness for C1: a concrete conflicting pair on which the auto strategy
keeps both sides even though the local record is strictly newer. -/
theorem smartMerge_auto_never_resolves_conflicts_witness :
    autoConflictAction { id := "X", createdAt := some 1, updatedAt := some 999 }
      { id := "X", created_at := 1, updated_at := 1 } = MergeAction.keep :=
  smartMerge_auto_never_resolves_conflicts.1 _ _ rfl rfl

/-- Local folder F1 created and last updated at time 100. -/
def f1Local : LocalRec := { id := "F1", createdAt := some 100, updatedAt := some 100 }

/-- A stale remote-change payload for F1 carrying updated_at 50. -/
def staleF1Cloud : CloudRec := { id := "F1", created_at := 100, updated_at := 50 }

/-- C2 counterexample: with local F1 stored at updatedAt 100, handling a
remote-change event for F1 with updated_at 50 replaces the local copy with
the converted event record, so the local copy does not stay unchanged. -/
theorem realtime_stale_update_overwrites :
    handleRealtimeChange (putRecord emptyStore f1Local) (.update staleF1Cloud) "F1"
        = some (cloudToLocal staleF1Cloud)
      ∧ some (cloudToLocal staleF1Cloud) ≠ putRecord emptyStore f1Local "F1" := by
  decide

/-- C2 amended: handling an inbound insert or update remote-change event
writes the converted event record into the local store unconditionally,
overwriting any stored record with the same id regardless of how the
timestamps compare. -/
theorem realtime_change_overwrites_unconditionally :
    ∀ (s : LocalStore) (c : CloudRec),
      handleRealtimeChange s (.insert c) c.id = some (cloudToLocal c)
      ∧ handleRealtimeChange s (.update c) c.id = some (cloudToLocal c) := by
  intro s c
  constructor <;> simp [handleRealtimeChange, putRecord, cloudToLocal]

/-- The shared leader record cloud_sync_leader held in extension storage. -/
structure LeaderRec where
  tabId : String
  timestamp : Int
deriving DecidableEq, Repr

/-- LEADER_TIMEOUT of the source: a leader is considered dead after 15000
milliseconds without a heartbeat. -/
def LEADER_TIMEOUT : Int := 15000

/-- The candidacy condition of tryBecomeLeader: no record exists, the record
age strictly exceeds LEADER_TIMEOUT, or the record already names this
process. -/
def leaderCandidate (selfId : String) (now : Int) (readRec : Option LeaderRec) : Bool :=
  match readRec with
  | none => true
  | some l => decide (now - l.timestamp > LEADER_TIMEOUT) || decide (l.tabId = selfId)

/-- The verification re-read of becomeLeader: leadership is confirmed exactly
when the re-read record exists and still names this process. -/
def confirmLeader (selfId : String) (reread : Option LeaderRec) : Bool :=
  match reread with
  | some l => decide (l.tabId = selfId)
  | none => false

/-- Outcome of one election round of a single process. -/
structure TryResult where
  isCandidate : Bool
  wrote : Option LeaderRec
  isLeader : Bool
deriving DecidableEq, Repr

/-- tryBecomeLeader followed (for candidates) by becomeLeader.  The inputs
are the record read from shared storage at the start of the round, the clock
at that read, the clock at the candidate write, and the record observed at
the verification re-read after the settle delay; the re-read value is a
parameter because another process may have written in between.  A candidate
writes its own token with the current time and takes the verification
outcome; a non-candidate writes nothing and ends the round as follower. -/
def tryBecomeLeader (selfId : String) (now : Int) (readRec : Option LeaderRec)
    (writeTime : Int) (reread : Option LeaderRec) : TryResult :=
  if leaderCandidate selfId now readRec then
    { isCandidate := true
      wrote := some { tabId := selfId, timestamp := writeTime }
      isLeader := confirmLeader selfId reread }
  else
    { isCandidate := false, wrote := none, isLeader := false }

theorem leaderCandidate_iff (selfId : String) (now : Int) (readRec : Option LeaderRec) :
    leaderCandidate selfId now readRec = true ↔
      readRec = none ∨
        ∃ l, readRec = some l ∧ (now - l.timestamp > LEADER_TIMEOUT ∨ l.tabId = selfId) := by
  cases readRec <;> simp [leaderCandidate]

theorem confirmLeader_iff (selfId : String) (reread : Option LeaderRec) :
    confirmLeader selfId reread = true ↔ ∃ l, reread = some l ∧ l.tabId = selfId := by
  cases reread <;> simp [confirmLeader]

/-- C3: in every election round a process is a candidate exactly when no
leader record exists, the record age strictly exceeds the 15 second lease
timeout, or the record already names this process; a candidate writes its own
token with the current time and ends the round as leader exactly when the
re-read record still names it; a non-candidate writes nothing and ends the
round as follower. -/
theorem tryBecomeLeader_spec :
    ∀ (selfId : String) (now : Int) (readRec : Option LeaderRec)
      (writeTime : Int) (reread : Option LeaderRec),
      ((tryBecomeLeader selfId now readRec writeTime reread).isCandidate = true ↔
        readRec = none ∨
          ∃ l, readRec = some l ∧ (now - l.timestamp > LEADER_TIMEOUT ∨ l.tabId = selfId))
      ∧ ((tryBecomeLeader selfId now readRec writeTime reread).isCandidate = true →
          (tryBecomeLeader selfId now readRec writeTime reread).wrote
              = some { tabId := selfId, timestamp := writeTime }
          ∧ ((tryBecomeLeader selfId now readRec writeTime reread).isLeader = true ↔
              ∃ l, reread = some l ∧ l.tabId = selfId))
      ∧ ((tryBecomeLeader selfId now readRec writeTime reread).isCandidate = false →
          (tryBecomeLeader selfId now readRec writeTime reread).wrote = none
          ∧ (tryBecomeLeader selfId now readRec writeTime reread).isLeader = false) := by
  intro selfId now readRec writeTime reread
  by_cases hcand : leaderCandidate selfId now readRec = true
  · refine ⟨?_, ?_, ?_⟩
    · rw [← leaderCandidate_iff selfId now readRec]
      simp [tryBecomeLeader, hcand]
    · intro _
      refine ⟨by simp [tryBecomeLeader, hcand], ?_⟩
      rw [← confirmLeader_iff selfId reread]
      simp [tryBecomeLeader, hcand]
    · intro hfalse
      simp [tryBecomeLeader, hcand] at hfalse
  · have hcf : leaderCandidate selfId now readRec = false := by
      simpa using hcand
    refine ⟨?_, ?_, ?_⟩
    · rw [← leaderCandidate_iff selfId now readRec]
      simp [tryBecomeLeader, hcf]
    · intro htrue
      simp [tryBecomeLeader, hcf] at htrue
    · intro _
      constructor <;> simp [tryBecomeLeader, hcf]

/-- Witness for C3: a concrete round in which a stale record (age 20 seconds)
makes the process a candidate and the re-read confirms it as leader. -/
theorem tryBecomeLeader_spec_witness :
    (tryBecomeLeader "tabA" 20000 (some { tabId := "tabB", timestamp := 0 }) 20001
        (some { tabId := "tabA", timestamp := 20001 })).isCandidate = true
      ∧ (tryBecomeLeader "tabA" 20000 (some { tabId := "tabB", timestamp := 0 }) 20001
        (some { tabId := "tabA", timestamp := 20001 })).isLeader = true := by
  have h := tryBecomeLeader_spec "tabA" 20000 (some { tabId := "tabB", timestamp := 0 }) 20001
    (some { tabId := "tabA", timestamp := 20001 })
  have hc : (tryBecomeLeader "tabA" 20000 (some { tabId := "tabB", timestamp := 0 }) 20001
      (some { tabId := "tabA", timestamp := 20001 })).isCandidate = true := by
    rw [h.1]
    exact Or.inr ⟨_, rfl, Or.inl (by decide)⟩
  exact ⟨hc, ((h.2.1 hc).2).mpr ⟨_, rfl, rfl⟩⟩

/-- An entry of the retry queue: operation kind, table name, the id of the
payload, the retry counter and the enqueue time. -/
structure RetryItem where
  operation : String
  storeName : String
  dataId : String
  retries : Nat := 0
  timestamp : Int := 0
deriving DecidableEq, Repr

/-- The arguments of one addToRetryQueue call. -/
structure RetryCall where
  operation : String
  storeName : String
  dataId : String
  timestamp : Int := 0
deriving DecidableEq, Repr

/-- MAX_RETRY_QUEUE_SIZE of the source. -/
def MAX_RETRY_QUEUE_SIZE : Nat := 100

/-- MAX_RETRIES_PER_ITEM of the source. -/
def MAX_RETRIES_PER_ITEM : Nat := 3

/-- The coalescing key of an entry: (storeName, data id, operation). -/
def itemKey (it : RetryItem) : String × String × String :=
  (it.storeName, it.dataId, it.operation)

/-- The coalescing key of a call. -/
def callKey (c : RetryCall) : String × String × String :=
  (c.storeName, c.dataId, c.operation)

/-- The duplicate test of addToRetryQueue: same storeName, same data id and
same operation as the call. -/
def matchesCall (c : RetryCall) (it : RetryItem) : Bool :=
  decide (it.storeName = c.storeName) && decide (it.dataId = c.dataId)
    && decide (it.operation = c.operation)

/-- The fresh entry pushed by addToRetryQueue, with retries zero. -/
def newItem (c : RetryCall) : RetryItem :=
  { operation := c.operation, storeName := c.storeName, dataId := c.dataId,
    retries := 0, timestamp := c.timestamp }

/-- addToRetryQueue of the source: when the queue is at capacity the oldest
entry is shifted off first; then, if an entry with the same key survives, the
call returns without touching it; otherwise a fresh entry with retries zero
is pushed. -/
def addToRetryQueue (q : List RetryItem) (c : RetryCall) : List RetryItem :=
  let q1 := if MAX_RETRY_QUEUE_SIZE ≤ q.length then q.drop 1 else q
  if q1.any (matchesCall c) then q1 else q1 ++ [newItem c]

/-- The queue produced by a sequence of addToRetryQueue calls starting from
the empty queue. -/
def runRetryQueue (calls : List RetryCall) : List RetryItem :=
  calls.foldl addToRetryQueue []

theorem matchesCall_iff (c : RetryCall) (it : RetryItem) :
    matchesCall c it = true ↔ itemKey it = callKey c := by
  simp [matchesCall, itemKey, callKey, Prod.ext_iff, and_assoc]

theorem matchesCall_newItem (c : RetryCall) : matchesCall c (newItem c) = true := by
  simp [matchesCall, newItem]

/-- States reachable by addToRetryQueue alone: bounded length, all counters
zero, pairwise distinct keys. -/
def QueueInv (q : List RetryItem) : Prop :=
  q.length ≤ MAX_RETRY_QUEUE_SIZE ∧ (∀ it ∈ q, it.retries = 0)
    ∧ q.Pairwise (fun a b => itemKey a ≠ itemKey b)

theorem queueInv_nil : QueueInv [] := by
  refine ⟨by simp [MAX_RETRY_QUEUE_SIZE], by simp, by simp⟩

theorem queueInv_add (q : List RetryItem) (c : RetryCall) (h : QueueInv q) :
    QueueInv (addToRetryQueue q c) := by
  obtain ⟨hlen, hret, hpw⟩ := h
  unfold addToRetryQueue
  set q1 := if MAX_RETRY_QUEUE_SIZE ≤ q.length then q.drop 1 else q with hq1
  have hsub : q1.Sublist q := by
    rw [hq1]
    split
    · exact List.drop_sublist 1 q
    · exact List.Sublist.refl q
  have hret1 : ∀ it ∈ q1, it.retries = 0 := fun it hm => hret it (hsub.mem hm)
  have hpw1 : q1.Pairwise (fun a b => itemKey a ≠ itemKey b) := hpw.sublist hsub
  by_cases hdup : q1.any (matchesCall c) = true
  · rw [if_pos hdup]
    exact ⟨le_trans hsub.length_le hlen, hret1, hpw1⟩
  · rw [if_neg hdup]
    have hnomem : ∀ it ∈ q1, matchesCall c it = false := by
      intro it hm
      by_contra hne
      exact hdup (List.any_eq_true.mpr ⟨it, hm, by revert hne; cases matchesCall c it <;> simp⟩)
    refine ⟨?_, ?_, ?_⟩
    · rw [List.length_append]
      have hmax : MAX_RETRY_QUEUE_SIZE = 100 := rfl
      have hdroplen : (List.drop 1 q).length = q.length - 1 := List.length_drop 1 q
      have : q1.length + 1 ≤ MAX_RETRY_QUEUE_SIZE := by
        rw [hq1]
        split
        · next hfull => omega
        · next hnotfull => omega
      simpa using this
    · intro it hm
      rcases List.mem_append.mp hm with hm1 | hm2
      · exact hret1 it hm1
      · simp at hm2
        rw [hm2]
        rfl
    · rw [List.pairwise_append]
      refine ⟨hpw1, by simp, ?_⟩
      intro a ha b hb
      simp at hb
      subst hb
      have hkni : itemKey (newItem c) = callKey c := rfl
      intro hkey
      have : matchesCall c a = true := (matchesCall_iff c a).mpr (hkey.trans hkni)
      rw [hnomem a ha] at this
      exact Bool.noConfusion this

theorem queueInv_run (calls : List RetryCall) : QueueInv (runRetryQueue calls) := by
  have general : ∀ (cs : List RetryCall) (q : List RetryItem), QueueInv q →
      QueueInv (cs.foldl addToRetryQueue q) := by
    intro cs
    induction cs with
    | nil => intro q h; exact h
    | cons c cs ih =>
        intro q h
        exact ih (addToRetryQueue q c) (queueInv_add q c h)
  exact general calls [] queueInv_nil

theorem countP_key_eq_one (c : RetryCall) :
    ∀ (q : List RetryItem), q.Pairwise (fun a b => itemKey a ≠ itemKey b) →
      (∃ it ∈ q, matchesCall c it = true) → q.countP (matchesCall c) = 1 := by
  intro q
  induction q with
  | nil => intro _ h; simp at h
  | cons a q ih =>
      intro hpw hex
      have ha := (List.pairwise_cons.mp hpw).1
      have hpwq := (List.pairwise_cons.mp hpw).2
      by_cases hm : matchesCall c a = true
      · rw [List.countP_cons_of_pos _ _ hm]
        have hzero : q.countP (matchesCall c) = 0 := by
          rw [List.countP_eq_zero]
          intro b hb hmb
          have hkb : itemKey b = callKey c := (matchesCall_iff c b).mp hmb
          have hka : itemKey a = callKey c := (matchesCall_iff c a).mp hm
          exact ha b hb (hka.trans hkb.symm)
        omega
      · rw [List.countP_cons_of_neg]
        · apply ih hpwq
          rcases hex with ⟨it, hmem, hit⟩
          rcases List.mem_cons.mp hmem with h1 | h2
          · rw [h1] at hit; exact absurd hit hm
          · exact ⟨it, h2, hit⟩
        · simp [hm]

/-- After any addToRetryQueue call on a reachable queue there is exactly one
entry with the key of the call. -/
theorem addToRetryQueue_countP_one (q : List RetryItem) (c : RetryCall)
    (hpw : q.Pairwise (fun a b => itemKey a ≠ itemKey b)) :
    (addToRetryQueue q c).countP (matchesCall c) = 1 := by
  unfold addToRetryQueue
  set q1 := if MAX_RETRY_QUEUE_SIZE ≤ q.length then q.drop 1 else q with hq1
  have hsub : q1.Sublist q := by
    rw [hq1]
    split
    · exact List.drop_sublist 1 q
    · exact List.Sublist.refl q
  have hpw1 : q1.Pairwise (fun a b => itemKey a ≠ itemKey b) := hpw.sublist hsub
  by_cases hdup : q1.any (matchesCall c) = true
  · rw [if_pos hdup]
    exact countP_key_eq_one c q1 hpw1 (List.any_eq_true.mp hdup)
  · rw [if_neg hdup]
    rw [List.countP_append]
    have hzero : q1.countP (matchesCall c) = 0 := by
      rw [List.countP_eq_zero]
      intro b hb hmb
      exact hdup (List.any_eq_true.mpr ⟨b, hb, hmb⟩)
    rw [hzero]
    simp [matchesCall_newItem]

/-- The scenario of 101 distinct failed upserts. -/
def calls101 : List RetryCall :=
  (List.range 101).map (fun i =>
    { operation := "upsert", storeName := "prompts", dataId := "item" ++ toString i })

/-- A sample call used as witness input. -/
def callA : RetryCall := { operation := "upsert", storeName := "prompts", dataId := "a" }

/-- A call duplicating the key of the second-oldest entry of q100. -/
def dupItem1 : RetryCall := { operation := "upsert", storeName := "prompts", dataId := "item1" }

set_option maxRecDepth 40000 in
theorem calls101_result :
    (runRetryQueue calls101).map RetryItem.dataId
      = (List.range 100).map (fun i => "item" ++ toString (i + 1)) := by
  decide

/-- C4: over every sequence of addToRetryQueue calls the queue length never
exceeds 100; a call whose key matches an existing entry leaves exactly one
entry for that key with its retry counter unchanged; and 101 distinct calls
leave exactly the 100 entries item1 to item100, the first-enqueued item0
having been evicted. -/
theorem retryQueue_cap_and_coalesce :
    (∀ calls : List RetryCall, (runRetryQueue calls).length ≤ MAX_RETRY_QUEUE_SIZE)
    ∧ (∀ (calls : List RetryCall) (c : RetryCall),
        (∃ it ∈ runRetryQueue calls, matchesCall c it = true) →
          (addToRetryQueue (runRetryQueue calls) c).countP (matchesCall c) = 1
          ∧ ∀ it ∈ runRetryQueue calls, matchesCall c it = true →
              ∀ it2 ∈ addToRetryQueue (runRetryQueue calls) c, matchesCall c it2 = true →
                it2.retries = it.retries)
    ∧ (runRetryQueue calls101).map RetryItem.dataId
        = (List.range 100).map (fun i => "item" ++ toString (i + 1)) := by
  refine ⟨?_, ?_, calls101_result⟩
  · intro calls
    exact (queueInv_run calls).1
  · intro calls c _
    obtain ⟨_, hret, hpw⟩ := queueInv_run calls
    obtain ⟨_, hret2, _⟩ := queueInv_add (runRetryQueue calls) c (queueInv_run calls)
    refine ⟨addToRetryQueue_countP_one (runRetryQueue calls) c hpw, ?_⟩
    intro it hm _ it2 hm2 _
    rw [hret it hm, hret2 it2 hm2]

/-- Witness for C4: a repeated call leaves a single entry with retries zero. -/
theorem retryQueue_cap_and_coalesce_witness :
    (addToRetryQueue (runRetryQueue [callA]) callA).countP (matchesCall callA) = 1 :=
  (retryQueue_cap_and_coalesce.2.1 [callA] callA (by decide)).1

/-- C10: when the queue holds exactly 100 items, the oldest is evicted before
the duplicate check, so a call duplicating a surviving entry adds nothing and
the queue ends the call with 99 items. -/
theorem addToRetryQueue_full_evicts_before_dup_check :
    ∀ (q : List RetryItem) (c : RetryCall),
      q.length = MAX_RETRY_QUEUE_SIZE →
      (q.drop 1).any (matchesCall c) = true →
      addToRetryQueue q c = q.drop 1
      ∧ (addToRetryQueue q c).length = MAX_RETRY_QUEUE_SIZE - 1 := by
  intro q c hlen hdup
  have heq : addToRetryQueue q c = q.drop 1 := by
    unfold addToRetryQueue
    rw [if_pos (le_of_eq hlen.symm)]
    rw [if_pos hdup]
  refine ⟨heq, ?_⟩
  rw [heq, List.length_drop, hlen]

/-- A concrete queue of 100 pairwise distinct entries. -/
def q100 : List RetryItem :=
  (List.range 100).map (fun i =>
    { operation := "upsert", storeName := "prompts", dataId := "item" ++ toString i })

set_option maxRecDepth 40000 in
/-- Witness for C10: on the concrete full queue, a call duplicating the
second-oldest entry leaves 99 items and inserts nothing. -/
theorem addToRetryQueue_full_evicts_before_dup_check_witness :
    addToRetryQueue q100 dupItem1 = q100.drop 1
      ∧ (addToRetryQueue q100 dupItem1).length = MAX_RETRY_QUEUE_SIZE - 1 :=
  addToRetryQueue_full_evicts_before_dup_check q100 dupItem1 (by decide) (by decide)

/-- One iteration of the drain loop of processRetryQueue: a successful replay
adds nothing back; a failed replay increments the retry counter and pushes
the item back only while the counter stays below MAX_RETRIES_PER_ITEM. -/
def retryStep (fails : RetryItem → Bool) (acc : List RetryItem) (it : RetryItem) :
    List RetryItem :=
  if fails it then
    if it.retries + 1 < MAX_RETRIES_PER_ITEM then
      acc ++ [{ it with retries := it.retries + 1 }]
    else acc
  else acc

/-- processRetryQueue of the source: the whole queue is swapped out, replayed
sequentially, and failures are re-enqueued through retryStep.  The fails
oracle says which replays throw. -/
def processRetryQueue (fails : RetryItem → Bool) (q : List RetryItem) : List RetryItem :=
  q.foldl (retryStep fails) []

theorem retryStep_eq (fails : RetryItem → Bool) (acc : List RetryItem) (it : RetryItem) :
    retryStep fails acc it =
      acc ++ (if fails it && decide (it.retries + 1 < MAX_RETRIES_PER_ITEM)
        then [{ it with retries := it.retries + 1 }] else []) := by
  unfold retryStep
  by_cases h1 : fails it = true
  · by_cases h2 : it.retries + 1 < MAX_RETRIES_PER_ITEM
    · simp [h1, h2]
    · simp [h1, h2]
  · have h1f : fails it = false := by
      revert h1
      cases fails it <;> simp
    simp [h1f]

theorem foldl_retryStep (fails : RetryItem → Bool) :
    ∀ (q acc : List RetryItem),
      q.foldl (retryStep fails) acc
        = acc ++ q.filterMap (fun it =>
            if fails it && decide (it.retries + 1 < MAX_RETRIES_PER_ITEM)
            then some { it with retries := it.retries + 1 } else none) := by
  intro q
  induction q with
  | nil => intro acc; simp
  | cons it q ih =>
      intro acc
      rw [List.foldl_cons, ih, retryStep_eq, List.filterMap_cons]
      by_cases h : (fails it && decide (it.retries + 1 < MAX_RETRIES_PER_ITEM)) = true
      · rw [if_pos h, h]
        simp
      · have hf : (fails it && decide (it.retries + 1 < MAX_RETRIES_PER_ITEM)) = false := by
          revert h
          cases fails it && decide (it.retries + 1 < MAX_RETRIES_PER_ITEM) <;> simp
        rw [hf]
        simp

/-- C5 counterexample: an item whose retry counter stands at 2 and whose
replay fails again is dropped outright: the drained queue is empty even
though the incremented counter 3 does not exceed the cap 3, so dropping is
not restricted to counters exceeding the cap. -/
theorem processRetryQueue_drops_at_cap :
    processRetryQueue (fun _ => true)
        [{ operation := "upsert", storeName := "prompts", dataId := "x", retries := 2 }] = []
      ∧ ¬ 2 + 1 > MAX_RETRIES_PER_ITEM := by
  decide

/-- C5 amended: one drain keeps exactly the failing items whose incremented
counter is still strictly below the cap 3, incrementing it, and drops every
other item; consequently a fresh item whose replay fails in three successive
drains is gone from the queue afterwards. -/
theorem processRetryQueue_spec :
    (∀ (fails : RetryItem → Bool) (q : List RetryItem),
      processRetryQueue fails q
        = q.filterMap (fun it =>
            if fails it && decide (it.retries + 1 < MAX_RETRIES_PER_ITEM)
            then some { it with retries := it.retries + 1 } else none))
    ∧ (∀ (op st dataId : String) (ts : Int),
        processRetryQueue (fun _ => true) (processRetryQueue (fun _ => true)
          (processRetryQueue (fun _ => true)
            [{ operation := op, storeName := st, dataId := dataId,
               retries := 0, timestamp := ts }])) = []) := by
  constructor
  · intro fails q
    unfold processRetryQueue
    rw [foldl_retryStep]
    simp
  · intro op st dataId ts
    rfl

/-- The reserved demo prefix test id.startsWith applied throughout the
source, written as a character-list prefix test so that it evaluates by
kernel reduction; it is extensionally the same predicate. -/
def isDemoId (s : String) : Bool := List.isPrefixOf "default-".data s.data

/-- The download decision of performInitialSync for one cloud record: always
download when no local record exists; otherwise compare the cloud updated_at
against the local updatedAt, falling back to the local createdAt (or epoch 0
when that is also missing) when no local updatedAt exists. -/
def shouldDownload (localRec : Option LocalRec) (c : CloudRec) : Bool :=
  match localRec with
  | none => true
  | some l =>
    match l.updatedAt with
    | some lu => decide (c.updated_at > lu)
    | none => decide (c.updated_at > l.createdAt.getD 0)

/-- The store effect of one iteration of the download loop of
performInitialSync; skipDemo is true for the prompts loop, which skips cloud
rows whose id carries the default- prefix, and false for the folders loop. -/
def syncStore (skipDemo : Bool) (s : LocalStore) (c : CloudRec) : LocalStore :=
  if skipDemo && isDemoId c.id then s
  else if shouldDownload (s c.id) c then putRecord s (cloudToLocal c) else s

/-- The download counter effect of the same iteration. -/
def syncCount (skipDemo : Bool) (s : LocalStore) (c : CloudRec) : Nat :=
  if skipDemo && isDemoId c.id then 0
  else if shouldDownload (s c.id) c then 1 else 0

/-- One iteration of the download loop, threading store and counter. -/
def initialSyncStep (skipDemo : Bool) (acc : LocalStore × Nat) (c : CloudRec) :
    LocalStore × Nat :=
  (syncStore skipDemo acc.1 c, acc.2 + syncCount skipDemo acc.1 c)

/-- performInitialSync restricted to one table: fold the download loop over
the cloud rows, returning the final store and the number of downloads. -/
def initialSyncPass (skipDemo : Bool) (s : LocalStore) (cloud : List CloudRec) :
    LocalStore × Nat :=
  cloud.foldl (initialSyncStep skipDemo) (s, 0)

theorem initialSyncPass_fst (skipDemo : Bool) :
    ∀ (cloud : List CloudRec) (s : LocalStore) (n : Nat),
      (cloud.foldl (initialSyncStep skipDemo) (s, n)).1 = cloud.foldl (syncStore skipDemo) s := by
  intro cloud
  induction cloud with
  | nil => intro s n; rfl
  | cons c rest ih => intro s n; exact ih (syncStore skipDemo s c) _

theorem syncStore_eq_of_count_zero (skipDemo : Bool) (s : LocalStore) (c : CloudRec)
    (h : syncCount skipDemo s c = 0) : syncStore skipDemo s c = s := by
  unfold syncStore
  unfold syncCount at h
  split
  · rfl
  · next hskip =>
      rw [if_neg hskip] at h
      split
      · next hdl => rw [if_pos hdl] at h; exact absurd h (by simp)
      · rfl

theorem initialSyncPass_stable (skipDemo : Bool) :
    ∀ (cloud : List CloudRec) (s : LocalStore) (n : Nat),
      (∀ c ∈ cloud, syncCount skipDemo s c = 0) →
      cloud.foldl (initialSyncStep skipDemo) (s, n) = (s, n) := by
  intro cloud
  induction cloud with
  | nil => intro s n _; rfl
  | cons c rest ih =>
      intro s n h
      have hc : syncCount skipDemo s c = 0 := h c (List.mem_cons_self c rest)
      have hstep : initialSyncStep skipDemo (s, n) c = (s, n) := by
        unfold initialSyncStep
        rw [syncStore_eq_of_count_zero skipDemo s c hc, hc]
        rfl
      rw [List.foldl_cons, hstep]
      exact ih s n (fun c2 hm => h c2 (List.mem_cons_of_mem c hm))

theorem syncStore_untouched (skipDemo : Bool) (s : LocalStore) (c : CloudRec) (i : String)
    (h : c.id ≠ i) : syncStore skipDemo s c i = s i := by
  unfold syncStore
  split
  · rfl
  · split
    · unfold putRecord
      rw [if_neg ?_]
      intro hi
      exact h (by rw [hi]; rfl)
    · rfl

theorem syncStoreFold_untouched (skipDemo : Bool) :
    ∀ (cloud : List CloudRec) (s : LocalStore) (i : String),
      (∀ c ∈ cloud, c.id ≠ i) → (cloud.foldl (syncStore skipDemo) s) i = s i := by
  intro cloud
  induction cloud with
  | nil => intro s i _; rfl
  | cons c rest ih =>
      intro s i h
      rw [List.foldl_cons, ih (syncStore skipDemo s c) i
        (fun c2 hm => h c2 (List.mem_cons_of_mem c hm))]
      exact syncStore_untouched skipDemo s c i (h c (List.mem_cons_self c rest))

theorem shouldDownload_congr (s1val s2val : Option LocalRec) (c : CloudRec)
    (h : s1val = s2val) : shouldDownload s1val c = shouldDownload s2val c := by
  rw [h]

theorem syncStoreFold_char (skipDemo : Bool) :
    ∀ (cloud : List CloudRec) (s : LocalStore),
      (cloud.map CloudRec.id).Nodup →
      ∀ c ∈ cloud,
        (cloud.foldl (syncStore skipDemo) s) c.id =
          if skipDemo && isDemoId c.id then s c.id
          else if shouldDownload (s c.id) c then some (cloudToLocal c) else s c.id := by
  intro cloud
  induction cloud with
  | nil => intro s _ c hm; exact absurd hm (List.not_mem_nil c)
  | cons c0 rest ih =>
      intro s hnd c hm
      have hnd0 : c0.id ∉ rest.map CloudRec.id := by
        rw [List.map_cons] at hnd
        exact (List.nodup_cons.mp hnd).1
      have hndr : (rest.map CloudRec.id).Nodup := by
        rw [List.map_cons] at hnd
        exact (List.nodup_cons.mp hnd).2
      rcases List.mem_cons.mp hm with hc0 | hrest
      · subst hc0
        rw [List.foldl_cons]
        have huntouched : ∀ c2 ∈ rest, c2.id ≠ c.id := by
          intro c2 hm2 hne
          exact hnd0 (hne ▸ List.mem_map_of_mem CloudRec.id hm2)
        rw [syncStoreFold_untouched skipDemo rest (syncStore skipDemo s c) c.id huntouched]
        unfold syncStore
        split
        · rfl
        · split
          · simp [putRecord, cloudToLocal]
          · rfl
      · rw [List.foldl_cons]
        have hne : c.id ≠ c0.id := by
          intro heq
          exact hnd0 (heq ▸ List.mem_map_of_mem CloudRec.id hrest)
        have hkeep : syncStore skipDemo s c0 c.id = s c.id :=
          syncStore_untouched skipDemo s c0 c.id (fun h => hne h.symm)
        rw [ih (syncStore skipDemo s c0) hndr c hrest, hkeep]

theorem shouldDownload_after_download (c : CloudRec) :
    shouldDownload (some (cloudToLocal c)) c = false := by
  unfold shouldDownload cloudToLocal
  simp

/-- C6: performInitialSync is idempotent.  Over any cloud row set with
distinct ids, each non-skipped row is either downloaded, after which the
local copy is exactly the converted cloud row (so its updatedAt equals the
remote updated_at), or left untouched because the download condition already
failed; consequently a second pass from the resulting store performs zero
downloads. -/
theorem initialSync_idempotent :
    ∀ (skipDemo : Bool) (s : LocalStore) (cloud : List CloudRec),
      (cloud.map CloudRec.id).Nodup →
      (∀ c ∈ cloud, (skipDemo && isDemoId c.id) = false →
        ((initialSyncPass skipDemo s cloud).1 c.id = some (cloudToLocal c)
          ∨ ((initialSyncPass skipDemo s cloud).1 c.id = s c.id
              ∧ shouldDownload (s c.id) c = false)))
      ∧ (initialSyncPass skipDemo ((initialSyncPass skipDemo s cloud).1) cloud).2 = 0 := by
  intro skipDemo s cloud hnd
  have hfst : (initialSyncPass skipDemo s cloud).1 = cloud.foldl (syncStore skipDemo) s :=
    initialSyncPass_fst skipDemo cloud s 0
  have hchar : ∀ c ∈ cloud, (skipDemo && isDemoId c.id) = false →
      ((initialSyncPass skipDemo s cloud).1 c.id = some (cloudToLocal c)
        ∨ ((initialSyncPass skipDemo s cloud).1 c.id = s c.id
            ∧ shouldDownload (s c.id) c = false)) := by
    intro c hm hskip
    rw [hfst]
    rw [syncStoreFold_char skipDemo cloud s hnd c hm]
    rw [hskip]
    rw [if_neg Bool.false_ne_true]
    by_cases hdl : shouldDownload (s c.id) c = true
    · rw [if_pos hdl]
      exact Or.inl rfl
    · rw [if_neg hdl]
      refine Or.inr ⟨rfl, ?_⟩
      revert hdl
      cases shouldDownload (s c.id) c <;> simp
  refine ⟨hchar, ?_⟩
  have hzero : ∀ c ∈ cloud,
      syncCount skipDemo ((initialSyncPass skipDemo s cloud).1) c = 0 := by
    intro c hm
    unfold syncCount
    by_cases hskip : (skipDemo && isDemoId c.id) = true
    · rw [if_pos hskip]
    · have hskipf : (skipDemo && isDemoId c.id) = false := by
        revert hskip
        cases skipDemo && isDemoId c.id <;> simp
      rw [if_neg hskip]
      rcases hchar c hm hskipf with hdl | ⟨heq, hdlf⟩
      · rw [hdl, shouldDownload_after_download]
        rfl
      · rw [heq, hdlf]
        rfl
  unfold initialSyncPass at hzero ⊢
  rw [initialSyncPass_stable skipDemo cloud _ 0 hzero]

/-- Witness for C6: a concrete one-row cloud set; the second pass downloads
zero rows. -/
theorem initialSync_idempotent_witness :
    (initialSyncPass true
      ((initialSyncPass true emptyStore [{ id := "p1", created_at := 1, updated_at := 5 }]).1)
      [{ id := "p1", created_at := 1, updated_at := 5 }]).2 = 0 :=
  (initialSync_idempotent true emptyStore [{ id := "p1", created_at := 1, updated_at := 5 }]
    (by decide)).2

/-- REALTIME_REFRESH_DEBOUNCE_MS of the source. -/
def REALTIME_REFRESH_DEBOUNCE_MS : Nat := 300

/-- Timer semantics of scheduleRealtimeUIRefresh over an ascending list of
event arrival times.  Every event clears the pending timer, if one is still
pending, and schedules a fresh refresh at its own time plus the quiet period.
The timer armed by an event therefore fires exactly when no further event
arrives strictly before its deadline: the next event either cancels it (when
it arrives before the deadline) or finds it already fired.  The returned list
collects the firing times of the refresh callback. -/
def debouncedFireTimes : List Nat → List Nat
  | [] => []
  | [t] => [t + REALTIME_REFRESH_DEBOUNCE_MS]
  | t :: u :: rest =>
      if u < t + REALTIME_REFRESH_DEBOUNCE_MS then debouncedFireTimes (u :: rest)
      else (t + REALTIME_REFRESH_DEBOUNCE_MS) :: debouncedFireTimes (u :: rest)

theorem debouncedFireTimes_cons_cons (t u : Nat) (rest : List Nat) :
    debouncedFireTimes (t :: u :: rest)
      = if u < t + REALTIME_REFRESH_DEBOUNCE_MS then debouncedFireTimes (u :: rest)
        else (t + REALTIME_REFRESH_DEBOUNCE_MS) :: debouncedFireTimes (u :: rest) :=
  rfl

/-- C7: when every event of a non-empty burst arrives within the 300 ms quiet
period of its predecessor, exactly one refresh fires, and it fires exactly at
(hence no earlier than) 300 ms after the last event. -/
theorem debounce_single_fire :
    ∀ (t : Nat) (ts : List Nat),
      List.Chain (fun a b => a ≤ b ∧ b < a + REALTIME_REFRESH_DEBOUNCE_MS) t ts →
      debouncedFireTimes (t :: ts)
        = [(t :: ts).getLast (List.cons_ne_nil t ts) + REALTIME_REFRESH_DEBOUNCE_MS] := by
  intro t ts
  induction ts generalizing t with
  | nil => intro _; rfl
  | cons u rest ih =>
      intro hch
      rcases List.chain_cons.mp hch with ⟨⟨_, hlt⟩, hch2⟩
      rw [debouncedFireTimes_cons_cons, if_pos hlt, ih u hch2]
      rw [List.getLast_cons_cons]

/-- Witness for C7: three events at 0, 50 and 100 milliseconds produce the
single firing time 400. -/
theorem debounce_single_fire_witness :
    debouncedFireTimes [0, 50, 100] = [400] := by
  have hch : List.Chain (fun a b => a ≤ b ∧ b < a + REALTIME_REFRESH_DEBOUNCE_MS) 0 [50, 100] :=
    List.Chain.cons (by decide) (List.Chain.cons (by decide) List.Chain.nil)
  have h := debounce_single_fire 0 [50, 100] hch
  simpa using h

/-- The user prompt filter applied throughout the source: local prompts whose
id does not carry the default- prefix. -/
def userPrompts (locals : List LocalRec) : List LocalRec :=
  locals.filter (fun p => !(isDemoId p.id))

/-- The ids uploaded by the prompt phase of performSmartMerge: local user
prompts absent from the cloud map, plus (auto strategy) those present on both
sides whose localTime comparison wins. -/
def smartMergePromptUploads (locals : List LocalRec) (cloud : List CloudRec) : List String :=
  (userPrompts locals).filterMap (fun l =>
    match cloud.find? (fun c => c.id == l.id) with
    | none => some l.id
    | some c => if jsGt (smartMergeLocalTime l) (smartMergeCloudTime c) then some l.id else none)

/-- The ids downloaded by the prompt phase of performSmartMerge: cloud rows
absent from the local user prompt map, plus (auto strategy) those present on
both sides whose cloudTime comparison wins.  The cloud side is NOT filtered
for the default- prefix. -/
def smartMergePromptDownloads (locals : List LocalRec) (cloud : List CloudRec) : List String :=
  cloud.filterMap (fun c =>
    match (userPrompts locals).find? (fun l => l.id == c.id) with
    | none => some c.id
    | some l => if jsGt (smartMergeCloudTime c) (smartMergeLocalTime l) then some c.id else none)

/-- The folder phase of performSmartMerge applies no default- filter at all;
its upload set over local folders absent from the cloud map. -/
def smartMergeFolderUploads (locals : List LocalRec) (cloud : List CloudRec) : List String :=
  locals.filterMap (fun l =>
    match cloud.find? (fun c => c.id == l.id) with
    | none => some l.id
    | some c => if jsGt (smartMergeLocalTime l) (smartMergeCloudTime c) then some l.id else none)

/-- A demo prompt as stored locally. -/
def demoLocalPrompt : LocalRec := { id := "default-001", createdAt := some 1, updatedAt := some 1 }

/-- A demo prompt row as found in the cloud (uploaded by an older version,
the situation cleanupDemoPrompts exists to repair). -/
def demoCloudPrompt : CloudRec := { id := "default-001", created_at := 1, updated_at := 1 }

/-- C8: performSmartMerge transfers records with the reserved default- prefix
after all.  Its prompt download loop has no default- skip, so a cloud row
default-001 is downloaded into the local store: both when it is absent
locally and, because the local lookup map is built from the already filtered
user prompts, even when the same demo prompt exists locally. -/
theorem smartMerge_downloads_demo_prompts :
    "default-001" ∈ smartMergePromptDownloads [] [demoCloudPrompt]
      ∧ "default-001" ∈ smartMergePromptDownloads [demoLocalPrompt] [demoCloudPrompt] := by
  decide

/-- Sync metadata relevant to conflict detection. -/
structure SyncMetadata where
  lastAction : String := "never"
  offlineWorkPending : Bool := false
deriving DecidableEq, Repr

/-- detectPotentialConflicts of the source: there is local data (folders or
non-demo prompts) and the last action was sign-out, offline work is pending,
or the store never synced. -/
def detectPotentialConflicts (localFolders localPrompts : List LocalRec)
    (m : SyncMetadata) : Bool :=
  let hasLocalData := decide (0 < localFolders.length)
    || decide (0 < (userPrompts localPrompts).length)
  hasLocalData && (decide (m.lastAction = "sign-out") || m.offlineWorkPending
    || decide (m.lastAction = "never"))

/-- A keyed put on the list view of a table: replace the record with the same
id or append. -/
def putList (l : List LocalRec) (r : LocalRec) : List LocalRec :=
  if l.any (fun x => x.id == r.id) then l.map (fun x => if x.id == r.id then r else x)
  else l ++ [r]

/-- The local-store effect of the download loop of performSmartMerge: cloud
rows absent from the (for prompts: user-filtered) lookup map are put, and
conflicting rows are put when the cloudTime comparison wins. -/
def smartMergeApplyDownloads (locals : List LocalRec) (cloud : List CloudRec)
    (userOnly : Bool) : List LocalRec :=
  let lookup := if userOnly then userPrompts locals else locals
  cloud.foldl (fun acc c =>
    match lookup.find? (fun l => l.id == c.id) with
    | none => putList acc (cloudToLocal c)
    | some l =>
        if jsGt (smartMergeCloudTime c) (smartMergeLocalTime l) then
          putList acc (cloudToLocal c)
        else acc) locals

/-- The observable outcome of the leader branch of
performBackgroundSyncAfterSignIn, before the subsequent initial sync step. -/
structure SignInSyncOutcome where
  uploadedFolderIds : List String
  uploadedPromptIds : List String
  localFoldersAfter : List LocalRec
  localPromptsAfter : List LocalRec
  usedSmartMerge : Bool
  didWholesaleDiscard : Bool
  remoteDeletes : List String
deriving Repr

/-- performBackgroundSyncAfterSignIn, leader branch: probe whether the cloud
account is empty; if so batch-upload all local folders and all non-demo local
prompts; otherwise, when conflict signals are present run the smart merge,
and when none are present clear the local tables keeping only demo prompts.
No branch issues a remote delete. -/
def performBackgroundSyncAfterSignIn (localFolders localPrompts : List LocalRec)
    (cloudFolders cloudPrompts : List CloudRec) (m : SyncMetadata) : SignInSyncOutcome :=
  let isNewAccount := cloudFolders.isEmpty && cloudPrompts.isEmpty
  if isNewAccount then
    { uploadedFolderIds := localFolders.map LocalRec.id
      uploadedPromptIds := (userPrompts localPrompts).map LocalRec.id
      localFoldersAfter := localFolders
      localPromptsAfter := localPrompts
      usedSmartMerge := false
      didWholesaleDiscard := false
      remoteDeletes := [] }
  else if detectPotentialConflicts localFolders localPrompts m then
    { uploadedFolderIds := smartMergeFolderUploads localFolders cloudFolders
      uploadedPromptIds := smartMergePromptUploads localPrompts cloudPrompts
      localFoldersAfter := smartMergeApplyDownloads localFolders cloudFolders false
      localPromptsAfter := smartMergeApplyDownloads localPrompts cloudPrompts true
      usedSmartMerge := true
      didWholesaleDiscard := false
      remoteDeletes := [] }
  else
    { uploadedFolderIds := []
      uploadedPromptIds := []
      localFoldersAfter := []
      localPromptsAfter := localPrompts.filter (fun p => isDemoId p.id)
      usedSmartMerge := false
      didWholesaleDiscard := true
      remoteDeletes := [] }

/-- C9 counterexample: on a new (empty) account the upload is not the entire
local data set: a local demo prompt default-001 is part of the local data but
is excluded from the uploaded prompts. -/
theorem signin_upload_excludes_demo :
    "default-001" ∈ [demoLocalPrompt].map LocalRec.id
      ∧ "default-001" ∉ (performBackgroundSyncAfterSignIn [] [demoLocalPrompt] [] []
          { lastAction := "never", offlineWorkPending := true }).uploadedPromptIds := by
  decide

/-- C9 amended: on the leader post-sign-in sync, an empty remote account
receives all local folders and all non-demo local prompts while nothing is
discarded or deleted remotely; a non-empty remote account without conflict
signals triggers a local-only discard that empties the folders, keeps exactly
the demo prompts and deletes nothing remotely; a non-empty remote account
with conflict signals goes through the smart merge instead of the discard. -/
theorem signin_sync_decision_spec :
    ∀ (lf lp : List LocalRec) (cf cp : List CloudRec) (m : SyncMetadata),
      ((cf.isEmpty && cp.isEmpty) = true →
        (performBackgroundSyncAfterSignIn lf lp cf cp m).uploadedFolderIds = lf.map LocalRec.id
        ∧ (performBackgroundSyncAfterSignIn lf lp cf cp m).uploadedPromptIds
            = (userPrompts lp).map LocalRec.id
        ∧ (performBackgroundSyncAfterSignIn lf lp cf cp m).didWholesaleDiscard = false
        ∧ (performBackgroundSyncAfterSignIn lf lp cf cp m).remoteDeletes = [])
      ∧ ((cf.isEmpty && cp.isEmpty) = false →
          detectPotentialConflicts lf lp m = false →
        (performBackgroundSyncAfterSignIn lf lp cf cp m).didWholesaleDiscard = true
        ∧ (performBackgroundSyncAfterSignIn lf lp cf cp m).localFoldersAfter = []
        ∧ (∀ p ∈ (performBackgroundSyncAfterSignIn lf lp cf cp m).localPromptsAfter,
            isDemoId p.id = true)
        ∧ (∀ p ∈ lp, isDemoId p.id = true →
            p ∈ (performBackgroundSyncAfterSignIn lf lp cf cp m).localPromptsAfter)
        ∧ (performBackgroundSyncAfterSignIn lf lp cf cp m).remoteDeletes = []
        ∧ (performBackgroundSyncAfterSignIn lf lp cf cp m).usedSmartMerge = false)
      ∧ ((cf.isEmpty && cp.isEmpty) = false →
          detectPotentialConflicts lf lp m = true →
        (performBackgroundSyncAfterSignIn lf lp cf cp m).usedSmartMerge = true
        ∧ (performBackgroundSyncAfterSignIn lf lp cf cp m).didWholesaleDiscard = false) := by
  intro lf lp cf cp m
  refine ⟨?_, ?_, ?_⟩
  · intro hempty
    simp [performBackgroundSyncAfterSignIn, hempty]
  · intro hempty hconf
    constructor
    · simp [performBackgroundSyncAfterSignIn, hempty, hconf]
    constructor
    · simp [performBackgroundSyncAfterSignIn, hempty, hconf]
    constructor
    · intro p hp
      simp [performBackgroundSyncAfterSignIn, hempty, hconf] at hp
      exact hp.2
    constructor
    · intro p hp hdemo
      simp [performBackgroundSyncAfterSignIn, hempty, hconf]
      exact ⟨hp, hdemo⟩
    constructor
    · simp [performBackgroundSyncAfterSignIn, hempty, hconf]
    · simp [performBackgroundSyncAfterSignIn, hempty, hconf]
  · intro hempty hconf
    constructor
    · simp [performBackgroundSyncAfterSignIn, hempty, hconf]
    · simp [performBackgroundSyncAfterSignIn, hempty, hconf]

/-- Witness for C9: a non-empty remote account with no conflict signals (last
action sign-in, no offline work) triggers the local-only discard. -/
theorem signin_sync_decision_spec_witness :
    (performBackgroundSyncAfterSignIn [] [demoLocalPrompt]
        [{ id := "cf1", created_at := 1, updated_at := 1 }] []
        { lastAction := "sign-in", offlineWorkPending := false }).didWholesaleDiscard = true :=
  ((signin_sync_decision_spec [] [demoLocalPrompt]
      [{ id := "cf1", created_at := 1, updated_at := 1 }] []
      { lastAction := "sign-in", offlineWorkPending := false }).2.1
    (by decide) (by decide)).1
